import Mathlib

/-!
Verification of the multi-agent orchestration and recovery layer of the
venue-recommendation service.

The embedding translates, from the Python source:
  * `src/consts.py`            — the `AgentStatus` tri-state enumeration;
  * `src/agents/capacity.py`,
    `src/agents/cost.py`       — `run` / `_analyze_*` of the two agents whose
                                 analysis helper catches the LLM-chain
                                 exception, sets `FAILURE` and returns `None`;
  * `src/agents/amenity.py`    — `run` / `_analyze_amenity_matching`, whose
                                 `except` clause logs and then `raise e`;
  * `src/agents/location.py`   — `run` / `_analyze_location_matching`, which
                                 invokes the chain twice (the first call sits
                                 outside the `try`, its result is overwritten);
  * `src/agents/recommend.py`  — the synthesis agent's `run`;
  * `src/orchestrator.py`      — `VenueRecommendationOrchestrator.recommend`
                                 and `_retry_agent`.

The LLM chain invocation (`chain.ainvoke`) is external: each of its
invocations is modelled as a value of `Except Exn ρ` — either a well-typed
parsed analysis object (`.ok`) or a raised exception (`.error`).  Pydantic
model objects are always truthy in Python, so an agent result is modelled as
`Option ρ` with `none` for Python `None`; Python truthiness of a result then
coincides with `Option.isSome`.
-/

/-- `AgentStatus` from `src/consts.py`. -/
inductive AgentStatus where
  | pending
  | success
  | failure
  deriving DecidableEq, Repr

/-- Exceptions that the embedded code can raise: `chainError` stands for any
exception escaping the external LLM chain call, `attributeError` for the
`AttributeError` raised by `None.model_dump_json(...)` in the agents'
final logging line. -/
inductive Exn where
  | chainError
  | attributeError
  deriving DecidableEq, Repr

/-- The shared shape of `_analyze_capacity_matching` (`capacity.py:201-215`)
and `_analyze_cost_matching` (`cost.py:188-201`): the chain call is wrapped in
`try`; on success the status becomes `SUCCESS` and the parsed result is
returned, on any exception the status becomes `FAILURE` and `None` is
returned. -/
def analyzeCatch (call : Except Exn ρ) : AgentStatus × Option ρ :=
  match call with
  | .ok r => (.success, some r)
  | .error _ => (.failure, none)

/-- The final line of each analysis agent's `run`:
`logger.info(f"... {result.model_dump_json(indent=2)}")`.  The f-string is
evaluated eagerly, so when `result` is `None` this raises `AttributeError`;
otherwise the result is returned unchanged. -/
def logDump (st : AgentStatus) (result : Option ρ) :
    AgentStatus × Except Exn (Option ρ) :=
  match result with
  | some r => (st, .ok (some r))
  | none => (st, .error .attributeError)

/-- `CapacitySpaceAgent.run` / `CostAnalysisAgent.run` as a function of the
agent's prior status and the outcome of the one chain invocation performed by
the analysis helper.  Returns the agent's status field after the call together
with the returned value (or the exception that escapes `run`). -/
def catchStyleRun (prior : AgentStatus) (call : Except Exn ρ) :
    AgentStatus × Except Exn (Option ρ) :=
  let res := analyzeCatch call
  let _ := prior
  logDump res.1 res.2

/-- `AmenityMatchingAgent._analyze_amenity_matching` (`amenity.py:168-201`):
on success sets `SUCCESS` and returns the result; on exception it logs and
re-raises (`raise e`) without touching the status field. -/
def amenityAnalyze (prior : AgentStatus) (call : Except Exn ρ) :
    AgentStatus × Except Exn (Option ρ) :=
  match call with
  | .ok r => (.success, .ok (some r))
  | .error e => (prior, .error e)

/-- `AmenityMatchingAgent.run` (`amenity.py:203-233`): the analysis helper
followed by the logging line. -/
def amenityRun (prior : AgentStatus) (call : Except Exn ρ) :
    AgentStatus × Except Exn (Option ρ) :=
  match amenityAnalyze prior call with
  | (st, .ok result) => logDump st result
  | (st, .error e) => (st, .error e)

/-- `LocationAgent._analyze_location_matching` (`location.py:184-227`): the
chain is invoked once *outside* the `try` block (`location.py:204`) — an
exception there propagates with the status untouched and the result of that
call is discarded — and then invoked again inside the `try`, which alone
determines the outcome. -/
def locationAnalyze (prior : AgentStatus) (call1 call2 : Except Exn ρ) :
    AgentStatus × Except Exn (Option ρ) :=
  match call1 with
  | .error e => (prior, .error e)
  | .ok _ =>
    match call2 with
    | .ok r => (.success, .ok (some r))
    | .error _ => (.failure, .ok none)

/-- `LocationAgent.run` (`location.py:229-260`): the analysis helper followed
by the logging line. -/
def locationRun (prior : AgentStatus) (call1 call2 : Except Exn ρ) :
    AgentStatus × Except Exn (Option ρ) :=
  match locationAnalyze prior call1 call2 with
  | (st, .ok result) => logDump st result
  | (st, .error e) => (st, .error e)

/-- Number of chain invocations performed by one execution of
`_analyze_location_matching`: one when the first (unprotected) invocation
raises, two otherwise. -/
def locationChainCalls (call1 : Except Exn ρ) : Nat :=
  match call1 with
  | .error _ => 1
  | .ok _ => 2

/-- `VenueRecommendationAgent.run` (`recommend.py:151-186`): the whole body is
wrapped in `try`; success sets `SUCCESS` and returns the parsed result,
any exception sets `FAILURE` and returns `None`.  This `run` never raises. -/
def synthesisRun (call : Except Exn σ) : AgentStatus × Option σ :=
  match call with
  | .ok r => (.success, some r)
  | .error _ => (.failure, none)

instance [DecidableEq ε] [DecidableEq α] : DecidableEq (Except ε α) := fun a b =>
  match a, b with
  | .ok x, .ok y =>
    if h : x = y then .isTrue (by rw [h]) else .isFalse (by simp [h])
  | .error x, .error y =>
    if h : x = y then .isTrue (by rw [h]) else .isFalse (by simp [h])
  | .ok _, .error _ => .isFalse (by simp)
  | .error _, .ok _ => .isFalse (by simp)

/-- A venue record carried in a document's metadata (`doc.metadata["venue"]`).
`venue_id` is `venue.get("venue_id")`: `none` when the field is absent
(Python `None`), `some s` when present; the Python value is truthy exactly
when it is `some s` with `s ≠ ""`.  `payload` stands for the remaining fields
of the record, so that two records with the same `venue_id` can differ. -/
structure Venue where
  venue_id : Option String
  payload : String
  deriving DecidableEq, Repr

/-- A retrieved document: `page_content` plus the optional `venue` record of
its metadata (`doc.metadata.get("venue")`). -/
structure Doc where
  page_content : String
  venue : Option Venue
  deriving DecidableEq, Repr

/-- Python `dict` assignment `m[k] = v` on an association list: when the key
is already present its stored value is replaced in place (insertion order is
kept at the first insertion), otherwise the pair is appended. -/
def pyDictSet [DecidableEq κ] : List (κ × ν) → κ → ν → List (κ × ν)
  | [], k, v => [(k, v)]
  | p :: m, k, v => if p.1 = k then (k, v) :: m else p :: pyDictSet m k v

/-- Python `m.get(k)` on an association list. -/
def pyGet [DecidableEq κ] : List (κ × ν) → κ → Option ν
  | [], _ => none
  | p :: m, k => if p.1 = k then some p.2 else pyGet m k

/-- One step of the dict comprehension
`{venue["venue_id"]: venue for doc in retrieved_documents
  if (venue := doc.metadata.get("venue")) is not None and venue.get("venue_id")}`
that appears identically in `capacity.py:237-242`, `amenity.py:222-227` and
`location.py:249-254`. -/
def dedupStep (m : List (String × Venue)) (d : Doc) : List (String × Venue) :=
  match d.venue with
  | some v =>
    match v.venue_id with
    | some vid => if vid ≠ "" then pyDictSet m vid v else m
    | none => m
  | none => m

/-- The venue list handed to the capacity, amenity and location agents:
`.values()` of the dict comprehension above. -/
def venuesDedup (docs : List Doc) : List Venue :=
  (docs.foldl dedupStep []).map (·.2)

/-- Alias: the venue list built in `CapacitySpaceAgent.run`. -/
def capacityVenues : List Doc → List Venue := venuesDedup

/-- Alias: the venue list built in `AmenityMatchingAgent.run`. -/
def amenityVenues : List Doc → List Venue := venuesDedup

/-- Alias: the venue list built in `LocationAgent.run`. -/
def locationVenues : List Doc → List Venue := venuesDedup

/-- The venue list built in `CostAnalysisAgent.run` (`cost.py:223-227`):
`[doc.metadata.get("venue") for doc in retrieved_documents
  if doc.metadata.get("venue") is not None]` — one record per document, no
deduplication and no `venue_id` check. -/
def costVenues (docs : List Doc) : List Venue :=
  docs.filterMap Doc.venue

/-- The four analysis agents coordinated by the orchestrator. -/
inductive RoleName where
  | amenity
  | cost
  | location
  | capacity
  deriving DecidableEq, Repr

/-- The order in which `recommend` lists the agents in `agent_results`
(`orchestrator.py:55-60`). -/
def agentOrder : List RoleName := [.amenity, .cost, .location, .capacity]

/-- Behaviour of one agent across successive `run` invocations (call `0` is
the initial parallel dispatch, calls `1, 2, 3` the retry attempts): for each
call index, the agent's status field after the call together with the value
`run` returned (or the exception it raised).  The orchestrator treats each
agent's `run` as an external suspendable operation, which this stream
models. -/
def AgentBeh (ρ : Type) : Type := Nat → AgentStatus × Except Exn (Option ρ)

/-- The retry loop of `VenueRecommendationOrchestrator._retry_agent`
(`orchestrator.py:118-134`): arguments are the behaviour stream, the fuel
(remaining attempts), the call index of the next attempt and the agent's
current status.  Returns the number of `run` calls made, the agent's final
status field and the value `_retry_agent` returns (`None` when every attempt
failed).  An attempt that raises is caught and the loop continues; an attempt
whose result is non-`None` with post-call status `SUCCESS` returns at once. -/
def retryLoop (beh : AgentBeh ρ) :
    Nat → Nat → AgentStatus → Nat × AgentStatus × Option ρ
  | 0, _, st => (0, st, none)
  | n + 1, idx, _st =>
    match beh idx with
    | (st1, .ok (some r)) =>
      if st1 = .success then (1, st1, some r)
      else
        let rest := retryLoop beh n (idx + 1) st1
        (rest.1 + 1, rest.2)
    | (st1, .ok none) =>
      let rest := retryLoop beh n (idx + 1) st1
      (rest.1 + 1, rest.2)
    | (st1, .error _) =>
      let rest := retryLoop beh n (idx + 1) st1
      (rest.1 + 1, rest.2)

/-- `_retry_agent` with `max_retries` attempts (the orchestrator always uses
the default `max_retries = 3`), starting from the status the initial dispatch
left the agent in; retry attempts consume the behaviour stream from call
index `1`. -/
def retryAgent (beh : AgentBeh ρ) (st0 : AgentStatus) (maxRetries : Nat) :
    Nat × AgentStatus × Option ρ :=
  retryLoop beh maxRetries 1 st0

/-- The qualifying value of one retry attempt: the returned result when the
attempt returned a non-`None` result and left the status at `SUCCESS`,
`none` otherwise (including raising attempts). -/
def attemptQual (o : AgentStatus × Except Exn (Option ρ)) : Option ρ :=
  match o with
  | (.success, .ok (some r)) => some r
  | _ => none

/-- `"\n".join([doc.page_content for doc in retrieved_documents])`
(`orchestrator.py:85`). -/
def similarEventsStr (docs : List Doc) : String :=
  String.intercalate "\n" (docs.map Doc.page_content)

/-- The argument tuple of the single `supervisor_agent.run` invocation
(`orchestrator.py:86-94`).  Each slot holds `recommendations.get(name, "")`:
`some r` when the mapping holds the agent's result, `none` standing for the
empty-string placeholder `""`. -/
structure SynthInput (ρ : Type) where
  capacitySlot : Option ρ
  amenitySlot : Option ρ
  locationSlot : Option ρ
  costSlot : Option ρ
  similarEvents : String
  topN : Nat
  deriving DecidableEq, Repr

/-- The slot of a given role inside a `SynthInput`. -/
def SynthInput.slot (inp : SynthInput ρ) : RoleName → Option ρ
  | .amenity => inp.amenitySlot
  | .cost => inp.costSlot
  | .location => inp.locationSlot
  | .capacity => inp.capacitySlot

/-- The value `recommend` returns when it does not raise: either the
`recommendations` mapping of the total-failure branch
(`orchestrator.py:83`) or the synthesis agent's result
(`orchestrator.py:95`), which is `none` when synthesis failed. -/
inductive RecommendResult (ρ σ : Type) where
  | mapping (m : List (RoleName × ρ))
  | synth (r : Option σ)
  deriving DecidableEq, Repr

/-- One complete execution of `recommend`: the returned value (or the
exception `asyncio.gather` propagated), the list of roles handed to
`_retry_agent` (empty when the retry branch was not entered) and the list of
argument tuples of the synthesis invocations performed. -/
structure RecommendRun (ρ σ : Type) where
  result : Except Exn (RecommendResult ρ σ)
  retried : List RoleName
  synthInputs : List (SynthInput ρ)
  deriving DecidableEq, Repr

/-- The synthesis step of `recommend` (`orchestrator.py:85-95`): build the
similar-events string, invoke the supervisor agent once with the four
`recommendations.get(name, "")` slots and return its result as-is. -/
def synthStep (recommendations : List (RoleName × ρ)) (docs : List Doc)
    (topN : Nat) (synthCall : Except Exn σ) : RecommendRun ρ σ :=
  let inp : SynthInput ρ :=
    { capacitySlot := pyGet recommendations .capacity
      amenitySlot := pyGet recommendations .amenity
      locationSlot := pyGet recommendations .location
      costSlot := pyGet recommendations .cost
      similarEvents := similarEventsStr docs
      topN := topN }
  ⟨.ok (.synth (synthesisRun synthCall).2), [], [inp]⟩

/-- The exception propagated by `asyncio.gather` on line 44-49 of
`orchestrator.py`, if any of the four `run` calls raised (`gather` is used
without `return_exceptions`, so the exception escapes `recommend`; the first
raising agent in `agent_results` order is taken). -/
def initialRaise (beh : RoleName → AgentBeh ρ) : Option Exn :=
  agentOrder.findSome?
    (fun r => match (beh r 0).2 with | .error e => some e | .ok _ => none)

/-- The value the named agent's initial `run` call returned. -/
def initialResult (beh : RoleName → AgentBeh ρ) (r : RoleName) : Option ρ :=
  match (beh r 0).2 with | .ok v => v | .error _ => none

/-- The named agent's status field after its initial `run` call. -/
def initialStatus (beh : RoleName → AgentBeh ρ) (r : RoleName) : AgentStatus :=
  (beh r 0).1

/-- One step of the `recommendations` construction (`orchestrator.py:62-64`):
record the agent's result when it is non-`None` and the status is
`SUCCESS`. -/
def recStep (st : RoleName → AgentStatus) (res : RoleName → Option ρ)
    (m : List (RoleName × ρ)) (r : RoleName) : List (RoleName × ρ) :=
  match res r with
  | some v => if st r = .success then pyDictSet m r v else m
  | none => m

/-- The `recommendations` mapping after the aggregation loop
(`orchestrator.py:62-64`). -/
def buildRecs (st : RoleName → AgentStatus) (res : RoleName → Option ρ) :
    List (RoleName × ρ) :=
  agentOrder.foldl (recStep st res) []

/-- `VenueRecommendationOrchestrator.recommend` (`orchestrator.py:30-95`),
as a function of each agent's behaviour stream, the retrieved documents,
`top_n` and the outcome of the synthesis agent's chain call.

Line by line: the four `run` calls are gathered — if any of them raised,
`asyncio.gather` (used without `return_exceptions`) propagates the exception
out of `recommend`.  Otherwise `recommendations` collects, over
`agent_results` order, each result that is non-`None` with status `SUCCESS`
(lines 62-64).  If no result is truthy (line 66), `retry_tasks` keeps the
roles whose result is `None` or whose status is `FAILURE` (lines 67-71); when
non-empty, the retries are gathered and then the merge loop (lines 80-82)
re-reads the *original* `result` of each retry task together with the agent's
post-retry status field, and the mapping is returned with no synthesis
(line 83).  Otherwise control reaches the synthesis step (lines 85-95). -/
def recommend (beh : RoleName → AgentBeh ρ) (docs : List Doc) (topN : Nat)
    (synthCall : Except Exn σ) : RecommendRun ρ σ :=
  match initialRaise beh with
  | some e => ⟨.error e, [], []⟩
  | none =>
    let recommendations := buildRecs (initialStatus beh) (initialResult beh)
    if agentOrder.all (fun r => (initialResult beh r).isNone) then
      let retryTasks := agentOrder.filter
        (fun r => (initialResult beh r).isNone
          || decide (initialStatus beh r = .failure))
      if retryTasks.isEmpty then
        synthStep recommendations docs topN synthCall
      else
        let merged := retryTasks.foldl (fun m r =>
          match initialResult beh r with
          | some v =>
            if (retryAgent (beh r) (initialStatus beh r) 3).2.1 = .success then
              pyDictSet m r v
            else m
          | none => m) recommendations
        ⟨.ok (.mapping merged), retryTasks, []⟩
    else
      synthStep recommendations docs topN synthCall

/-- Specification-side description used by the amended C6 claim: the *last*
venue record, in retrieval order, among the documents whose metadata venue
carries the given `venue_id`. -/
def lastVenueFor : List Doc → String → Option Venue
  | [], _ => none
  | d :: ds, vid =>
    match lastVenueFor ds vid with
    | some v => some v
    | none =>
      match d.venue with
      | some v => if v.venue_id = some vid then some v else none
      | none => none

/-- Invariant of the dict built by the dedup comprehension: every stored
venue's `venue_id` is its own (truthy) key, and the keys are pairwise
distinct. -/
def goodMap (m : List (String × Venue)) : Prop :=
  (∀ p ∈ m, p.2.venue_id = some p.1 ∧ p.1 ≠ "") ∧ (m.map Prod.fst).Nodup

/-- A venue record for id `"V1"` with one payload. -/
def vFirst : Venue := ⟨some "V1", "payload-a"⟩

/-- A venue record for the same id `"V1"` with a different payload. -/
def vSecond : Venue := ⟨some "V1", "payload-b"⟩

/-- Two documents whose metadata both carry a venue record with
`venue_id = "V1"`, with differing content. -/
def twoDocs : List Doc := [⟨"doc one", some vFirst⟩, ⟨"doc two", some vSecond⟩]

/-- A venue record whose `venue_id` field is absent, and one whose
`venue_id` is the empty string (both untruthy in Python). -/
def vNoId : Venue := ⟨none, "payload-c"⟩

def vEmptyId : Venue := ⟨some "", "payload-d"⟩

/-- Documents carrying venue records without a truthy `venue_id`, plus one
well-formed record. -/
def mixedDocs : List Doc :=
  [⟨"doc one", some vNoId⟩, ⟨"doc two", some vEmptyId⟩, ⟨"doc three", some vFirst⟩]

/-- Behaviour where every agent succeeds on the initial dispatch with a
distinct result. -/
def allOkBeh : RoleName → AgentBeh Nat := fun r _ =>
  (.success, .ok (some (match r with
    | .amenity => 1 | .cost => 2 | .location => 3 | .capacity => 4)))

/-- Behaviour where the location agent fails (status `FAILURE`, result
`None`) and the other three succeed. -/
def oneFailBeh : RoleName → AgentBeh Nat := fun r _ =>
  match r with
  | .location => (.failure, .ok none)
  | .amenity => (.success, .ok (some 1))
  | .cost => (.success, .ok (some 2))
  | .capacity => (.success, .ok (some 4))

/-- Behaviour where every agent returns `None` with status `FAILURE` on the
initial dispatch and succeeds (result `7`, status `SUCCESS`) on every retry
attempt. -/
def allFailRetryOkBeh : RoleName → AgentBeh Nat := fun _ k =>
  if k = 0 then (.failure, .ok none) else (.success, .ok (some 7))

/-- Behaviour where every agent's `run` raises on every call, with the status
field left at `PENDING`. -/
def allRaiseBeh : RoleName → AgentBeh Nat := fun _ _ =>
  (.pending, .error .chainError)

/-- A single agent's behaviour whose retry attempt 1 (call index 1) raises
and whose retry attempt 2 (call index 2) succeeds with result `5`. -/
def retryDemoBeh : AgentBeh Nat := fun k =>
  if k ≤ 1 then (.failure, .error .chainError) else (.success, .ok (some 5))

theorem pyGet_pyDictSet [DecidableEq κ] (m : List (κ × ν)) (k k' : κ) (v : ν) :
    pyGet (pyDictSet m k v) k' = if k' = k then some v else pyGet m k' := by
  induction m with
  | nil =>
    rcases eq_or_ne k' k with h | h
    · subst h; simp [pyDictSet, pyGet]
    · simp [pyDictSet, pyGet, h, Ne.symm h]
  | cons p m ih =>
    by_cases hp : p.1 = k
    · rcases eq_or_ne k' k with h | h
      · subst h; simp [pyDictSet, pyGet, hp]
      · have hp' : p.1 ≠ k' := by rw [hp]; exact Ne.symm h
        simp [pyDictSet, pyGet, hp, h, Ne.symm h, hp']
    · by_cases hpk : p.1 = k'
      · have h : k' ≠ k := by rw [← hpk]; exact hp
        simp [pyDictSet, pyGet, hp, hpk, h]
      · simp [pyDictSet, pyGet, hp, hpk, ih]

theorem mem_keys_pyDictSet [DecidableEq κ] {m : List (κ × ν)} {k x : κ} {v : ν}
    (h : x ∈ (pyDictSet m k v).map Prod.fst) :
    x ∈ m.map Prod.fst ∨ x = k := by
  induction m with
  | nil => simp [pyDictSet] at h; right; exact h
  | cons p m ih =>
    by_cases hp : p.1 = k
    · simp [pyDictSet, hp] at h
      rcases h with h | h
      · right; exact h
      · left; simp [h]
    · simp [pyDictSet, hp] at h
      rcases h with h | h
      · left; simp [h]
      · rcases ih (by simpa using h) with h' | h'
        · left; simp; right; simpa using h'
        · right; exact h'

theorem nodup_keys_pyDictSet [DecidableEq κ] (m : List (κ × ν)) (k : κ) (v : ν)
    (h : (m.map Prod.fst).Nodup) : ((pyDictSet m k v).map Prod.fst).Nodup := by
  induction m with
  | nil => simp [pyDictSet]
  | cons p m ih =>
    simp only [List.map_cons, List.nodup_cons] at h
    by_cases hp : p.1 = k
    · simp only [pyDictSet, if_pos hp, List.map_cons, List.nodup_cons]
      exact ⟨hp ▸ h.1, h.2⟩
    · simp only [pyDictSet, if_neg hp, List.map_cons, List.nodup_cons]
      refine ⟨fun hmem => ?_, ih h.2⟩
      rcases mem_keys_pyDictSet hmem with h' | h'
      · exact h.1 h'
      · exact hp h'

theorem mem_pyDictSet [DecidableEq κ] {m : List (κ × ν)} {k : κ} {v : ν}
    {q : κ × ν} (h : q ∈ pyDictSet m k v) : q ∈ m ∨ q = (k, v) := by
  induction m with
  | nil => simp [pyDictSet] at h; right; exact h
  | cons p m ih =>
    by_cases hp : p.1 = k
    · simp [pyDictSet, hp] at h
      rcases h with h | h
      · right; exact h
      · left; simp [h]
    · simp [pyDictSet, hp] at h
      rcases h with h | h
      · left; simp [h]
      · rcases ih h with h' | h'
        · left; simp [h']
        · right; exact h'

theorem pyGet_foldRecs_notmem (st : RoleName → AgentStatus)
    (res : RoleName → Option ρ) (r : RoleName) :
    ∀ (rs : List RoleName) (m : List (RoleName × ρ)), r ∉ rs →
      pyGet (rs.foldl (recStep st res) m) r = pyGet m r := by
  intro rs
  induction rs with
  | nil => intro m _; rfl
  | cons r' rs ih =>
    intro m hr
    rw [List.foldl_cons, ih _ (fun h => hr (List.mem_cons_of_mem _ h))]
    have hne : r ≠ r' := fun h => hr (h ▸ List.mem_cons_self _ _)
    rcases hres : res r' with _ | v
    · simp [recStep, hres]
    · by_cases hst : st r' = .success
      · simp [recStep, hres, hst, pyGet_pyDictSet, hne]
      · simp [recStep, hres, hst]

theorem pyGet_foldRecs_mem (st : RoleName → AgentStatus)
    (res : RoleName → Option ρ) (r : RoleName) :
    ∀ (rs : List RoleName) (m : List (RoleName × ρ)), r ∈ rs → rs.Nodup →
      pyGet (rs.foldl (recStep st res) m) r =
        match res r with
        | some v => if st r = .success then some v else pyGet m r
        | none => pyGet m r := by
  intro rs
  induction rs with
  | nil => intro m h _; cases h
  | cons r' rs ih =>
    intro m hmem hnd
    rw [List.foldl_cons]
    rcases List.mem_cons.mp hmem with heq | htail
    · subst heq
      have hr : r ∉ rs := (List.nodup_cons.mp hnd).1
      rw [pyGet_foldRecs_notmem st res r rs _ hr]
      rcases hres : res r with _ | v
      · simp [recStep, hres]
      · by_cases hst : st r = .success
        · simp [recStep, hres, hst, pyGet_pyDictSet]
        · simp [recStep, hres, hst]
    · have hnd' := (List.nodup_cons.mp hnd).2
      have hne : r ≠ r' := by
        rintro rfl; exact (List.nodup_cons.mp hnd).1 htail
      rw [ih _ htail hnd']
      have hstep : pyGet (recStep st res m r') r = pyGet m r := by
        rcases hres : res r' with _ | v
        · simp [recStep, hres]
        · by_cases hst : st r' = .success
          · simp [recStep, hres, hst, pyGet_pyDictSet, hne]
          · simp [recStep, hres, hst]
      rw [hstep]

theorem pyGet_buildRecs (st : RoleName → AgentStatus) (res : RoleName → Option ρ)
    (r : RoleName) :
    pyGet (buildRecs st res) r =
      match res r with
      | some v => if st r = .success then some v else none
      | none => none := by
  have h := pyGet_foldRecs_mem st res r agentOrder []
    (by cases r <;> simp [agentOrder]) (by simp [agentOrder])
  rw [buildRecs, h]
  rcases res r with _ | v <;> rfl

theorem initialRaise_none (beh : RoleName → AgentBeh ρ)
    (st : RoleName → AgentStatus) (res : RoleName → Option ρ)
    (h : ∀ r, beh r 0 = (st r, .ok (res r))) : initialRaise beh = none := by
  simp [initialRaise, agentOrder, h]

theorem initialResult_eq (beh : RoleName → AgentBeh ρ)
    (st : RoleName → AgentStatus) (res : RoleName → Option ρ)
    (h : ∀ r, beh r 0 = (st r, .ok (res r))) :
    initialResult beh = res := by
  funext r; simp [initialResult, h r]

theorem initialStatus_eq (beh : RoleName → AgentBeh ρ)
    (st : RoleName → AgentStatus) (res : RoleName → Option ρ)
    (h : ∀ r, beh r 0 = (st r, .ok (res r))) :
    initialStatus beh = st := by
  funext r; simp [initialStatus, h r]

theorem recommend_synth_branch (beh : RoleName → AgentBeh ρ)
    (st : RoleName → AgentStatus) (res : RoleName → Option ρ)
    (docs : List Doc) (topN : Nat) (synthCall : Except Exn σ)
    (h : ∀ r, beh r 0 = (st r, .ok (res r))) (f : RoleName)
    (hf : (res f).isSome) :
    recommend beh docs topN synthCall =
      synthStep (buildRecs st res) docs topN synthCall := by
  have hraise := initialRaise_none beh st res h
  have hres := initialResult_eq beh st res h
  have hst := initialStatus_eq beh st res h
  have hall : agentOrder.all (fun r => (res r).isNone) = false := by
    rcases Option.isSome_iff_exists.mp hf with ⟨v, hv⟩
    refine List.all_eq_false.mpr ⟨f, ?_, by simp [hv]⟩
    cases f <;> simp [agentOrder]
  simp only [recommend, hraise, hres, hst, hall]
  simp

theorem recommend_total_failure (beh : RoleName → AgentBeh ρ)
    (st : RoleName → AgentStatus) (docs : List Doc) (topN : Nat)
    (synthCall : Except Exn σ)
    (h : ∀ r, beh r 0 = (st r, .ok none)) :
    recommend beh docs topN synthCall = ⟨.ok (.mapping []), agentOrder, []⟩ := by
  have hraise := initialRaise_none beh st (fun _ => none) h
  have hres := initialResult_eq beh st (fun _ => none) h
  have hst := initialStatus_eq beh st (fun _ => none) h
  simp only [recommend, hraise, hres, hst]
  simp [agentOrder, buildRecs, recStep]

theorem attemptQual_eq_some {o : AgentStatus × Except Exn (Option ρ)} {r : ρ} :
    attemptQual o = some r ↔ o = (.success, .ok (some r)) := by
  rcases o with ⟨st, ret⟩
  cases st <;> rcases ret with e | v <;>
    first
    | (rcases v with _ | r' <;> simp [attemptQual])
    | simp [attemptQual]

theorem retryLoop_calls_le (beh : AgentBeh ρ) :
    ∀ (n idx : Nat) (st : AgentStatus), (retryLoop beh n idx st).1 ≤ n := by
  intro n
  induction n with
  | zero => intro idx st; simp [retryLoop]
  | succ n ih =>
    intro idx st
    rcases hb : beh idx with ⟨st1, ret⟩
    rcases ret with e | v
    · simp only [retryLoop, hb]
      exact Nat.succ_le_succ (ih _ _)
    · rcases v with _ | r
      · simp only [retryLoop, hb]
        exact Nat.succ_le_succ (ih _ _)
      · by_cases hst : st1 = .success
        · simp [retryLoop, hb, hst]
        · simp only [retryLoop, hb, if_neg hst]
          exact Nat.succ_le_succ (ih _ _)

theorem retryLoop_all_fail (beh : AgentBeh ρ) :
    ∀ (n idx : Nat) (st : AgentStatus),
      (∀ k, k < n → attemptQual (beh (idx + k)) = none) →
      (retryLoop beh n idx st).1 = n ∧ (retryLoop beh n idx st).2.2 = none := by
  intro n
  induction n with
  | zero => intro idx st _; simp [retryLoop]
  | succ n ih =>
    intro idx st hfail
    have h0 : attemptQual (beh idx) = none := by
      have := hfail 0 (Nat.succ_pos n); simpa using this
    have hrest : ∀ k, k < n → attemptQual (beh (idx + 1 + k)) = none := by
      intro k hk
      have heq : idx + 1 + k = idx + (k + 1) := by omega
      rw [heq]
      exact hfail (k + 1) (Nat.succ_lt_succ hk)
    rcases hb : beh idx with ⟨st1, ret⟩
    rcases ret with e | v
    · have hr := ih (idx + 1) st1 hrest
      simp [retryLoop, hb, hr.1, hr.2]
    · rcases v with _ | r
      · have hr := ih (idx + 1) st1 hrest
        simp [retryLoop, hb, hr.1, hr.2]
      · have hst : st1 ≠ .success := by
          intro hco
          rw [hb, hco] at h0
          simp [attemptQual] at h0
        have hr := ih (idx + 1) st1 hrest
        simp [retryLoop, hb, hst, hr.1, hr.2]

theorem retryLoop_first_success (beh : AgentBeh ρ) :
    ∀ (n k idx : Nat) (st : AgentStatus) (r : ρ), k < n →
      attemptQual (beh (idx + k)) = some r →
      (∀ j, j < k → attemptQual (beh (idx + j)) = none) →
      (retryLoop beh n idx st).1 = k + 1 ∧
        (retryLoop beh n idx st).2.2 = some r := by
  intro n
  induction n with
  | zero => intro k idx st r hk; exact absurd hk (Nat.not_lt_zero k)
  | succ n ih =>
    intro k idx st r hk hq hprev
    cases k with
    | zero =>
      have hq0 : attemptQual (beh idx) = some r := by simpa using hq
      have hb := attemptQual_eq_some.mp hq0
      simp [retryLoop, hb]
    | succ k =>
      have h0 : attemptQual (beh idx) = none := by
        have := hprev 0 (Nat.succ_pos k); simpa using this
      have hq' : attemptQual (beh (idx + 1 + k)) = some r := by
        have heq : idx + 1 + k = idx + (k + 1) := by omega
        rw [heq]; exact hq
      have hprev' : ∀ j, j < k → attemptQual (beh (idx + 1 + j)) = none := by
        intro j hj
        have heq : idx + 1 + j = idx + (j + 1) := by omega
        rw [heq]
        exact hprev (j + 1) (Nat.succ_lt_succ hj)
      have hk' : k < n := Nat.lt_of_succ_lt_succ hk
      rcases hb : beh idx with ⟨st1, ret⟩
      rcases ret with e | v
      · have hr := ih k (idx + 1) st1 r hk' hq' hprev'
        simp [retryLoop, hb, hr.1, hr.2]
      · rcases v with _ | r'
        · have hr := ih k (idx + 1) st1 r hk' hq' hprev'
          simp [retryLoop, hb, hr.1, hr.2]
        · have hst : st1 ≠ .success := by
            intro hco
            rw [hb, hco] at h0
            simp [attemptQual] at h0
          have hr := ih k (idx + 1) st1 r hk' hq' hprev'
          simp [retryLoop, hb, hst, hr.1, hr.2]

theorem pyGet_eq_none [DecidableEq κ] {m : List (κ × ν)} {k : κ}
    (h : k ∉ m.map Prod.fst) : pyGet m k = none := by
  induction m with
  | nil => rfl
  | cons p m ih =>
    simp only [List.map_cons, List.mem_cons] at h
    push_neg at h
    simp [pyGet, Ne.symm h.1, ih h.2]

theorem goodMap_pyDictSet {m : List (String × Venue)} {k : String} {v : Venue}
    (hg : goodMap m) (hv : v.venue_id = some k) (hk : k ≠ "") :
    goodMap (pyDictSet m k v) := by
  constructor
  · intro p hp
    rcases mem_pyDictSet hp with h | h
    · exact hg.1 p h
    · subst h; exact ⟨hv, hk⟩
  · exact nodup_keys_pyDictSet m k v hg.2

theorem goodMap_dedupStep {m : List (String × Venue)} (d : Doc)
    (hg : goodMap m) : goodMap (dedupStep m d) := by
  rcases hd : d.venue with _ | v
  · simpa [dedupStep, hd] using hg
  · rcases hid : v.venue_id with _ | vid
    · simpa [dedupStep, hd, hid] using hg
    · rcases eq_or_ne vid "" with hvid | hvid
      · simp only [dedupStep, hd, hid]
        rw [if_neg (by simp [hvid])]
        exact hg
      · simp only [dedupStep, hd, hid]
        rw [if_pos hvid]
        exact goodMap_pyDictSet hg hid hvid

theorem goodMap_nil : goodMap [] := ⟨by simp, by simp⟩

theorem goodMap_foldDedup (docs : List Doc) :
    ∀ m, goodMap m → goodMap (docs.foldl dedupStep m) := by
  induction docs with
  | nil => intro m hm; exact hm
  | cons d ds ih => intro m hm; exact ih _ (goodMap_dedupStep d hm)

theorem filter_values_goodMap :
    ∀ (m : List (String × Venue)), goodMap m → ∀ (vid : String),
      (m.map Prod.snd).filter (fun v => decide (v.venue_id = some vid)) =
        (match pyGet m vid with
         | some v => [v]
         | none => []) := by
  intro m
  induction m with
  | nil => intro _ _; rfl
  | cons p m ih =>
    intro hg vid
    have hp := hg.1 p (List.mem_cons_self p m)
    have hnd : p.1 ∉ m.map Prod.fst ∧ (m.map Prod.fst).Nodup := by
      have h2 := hg.2
      simp only [List.map_cons, List.nodup_cons] at h2
      exact h2
    have hgm : goodMap m :=
      ⟨fun q hq => hg.1 q (List.mem_cons_of_mem p hq), hnd.2⟩
    by_cases hk : p.1 = vid
    · have hvp : p.2.venue_id = some vid := by rw [hp.1, hk]
      have hget : pyGet m vid = none := pyGet_eq_none (hk ▸ hnd.1)
      have htail :
          (m.map Prod.snd).filter (fun v => decide (v.venue_id = some vid)) = [] := by
        rw [ih hgm vid, hget]
      simp [List.filter_cons, hvp, pyGet, hk, htail]
    · have hvp : p.2.venue_id ≠ some vid := by rw [hp.1]; simp [hk]
      simp [List.filter_cons, hvp, pyGet, hk, ih hgm vid]

theorem pyGet_foldDedup (vid : String) (hvid : vid ≠ "") :
    ∀ (docs : List Doc) (m : List (String × Venue)),
      pyGet (docs.foldl dedupStep m) vid =
        (match lastVenueFor docs vid with
         | some v => some v
         | none => pyGet m vid) := by
  intro docs
  induction docs with
  | nil => intro m; rfl
  | cons d ds ih =>
    intro m
    rw [List.foldl_cons, ih (dedupStep m d)]
    rcases hl : lastVenueFor ds vid with _ | v
    · simp only [lastVenueFor, hl]
      rcases hd : d.venue with _ | v'
      · simp [dedupStep, hd]
      · rcases hid : v'.venue_id with _ | k
        · simp [dedupStep, hd, hid]
        · by_cases hkv : k = vid
          · subst hkv
            simp [dedupStep, hd, hid, hvid, pyGet_pyDictSet]
          · rcases eq_or_ne k "" with hke | hke
            · simp [dedupStep, hd, hid, hke, hkv, Ne.symm hvid]
            · simp [dedupStep, hd, hid, hke, hkv, Ne.symm hkv, pyGet_pyDictSet]
    · simp only [lastVenueFor, hl]

theorem costVenues_length (docs : List Doc) :
    (costVenues docs).length = (docs.filter (fun d => d.venue.isSome)).length := by
  induction docs with
  | nil => rfl
  | cons d ds ih =>
    simp only [costVenues] at ih ⊢
    rcases hd : d.venue with _ | v <;>
      simp [List.filterMap_cons, List.filter_cons, hd, ih]

/-- Claim C1: in a pass where all four agent results are `None`, `recommend`
does hand exactly the four roles to the retry controller and does skip
synthesis, but it then returns an *empty* mapping even though every retry
attempt succeeded: the merge loop (`orchestrator.py:80-82`) re-reads the
stale pre-retry results instead of `retry_results`, so newly successful
retry results are never merged into the returned mapping, contrary to the
claim. -/
theorem c1_total_failure_merge_drops_retry_results :
    recommend allFailRetryOkBeh [] 3 (Except.ok (0 : Nat)) =
      ⟨.ok (.mapping []), [.amenity, .cost, .location, .capacity], []⟩ ∧
    (retryAgent (allFailRetryOkBeh .amenity) .failure 3).2.2 = some 7 ∧
    (retryAgent (allFailRetryOkBeh .cost) .failure 3).2.2 = some 7 ∧
    (retryAgent (allFailRetryOkBeh .location) .failure 3).2.2 = some 7 ∧
    (retryAgent (allFailRetryOkBeh .capacity) .failure 3).2.2 = some 7 := by
  decide

/-- Claim C2: an exception from the underlying chain call is *not* contained
in the agents.  The amenity agent re-raises it from `run` with the status
still `PENDING` (`amenity.py:201`); the capacity/cost agents do set
`FAILURE` and `None` but their `run` then raises `AttributeError` on the
logging line (`capacity.py:247`); the location agent's first, unprotected
chain call lets the exception through (`location.py:204`); and through
`asyncio.gather` the exception escapes `recommend`, contrary to the
claim. -/
theorem c2_role_exception_escapes :
    amenityRun .pending (Except.error .chainError : Except Exn Nat) =
      (.pending, .error .chainError) ∧
    catchStyleRun .pending (Except.error .chainError : Except Exn Nat) =
      (.failure, .error .attributeError) ∧
    locationRun .pending (Except.error .chainError : Except Exn Nat) (.ok 0) =
      (.pending, .error .chainError) ∧
    (recommend allRaiseBeh [] 3 (Except.ok (0 : Nat))).result =
      .error .chainError := by
  decide

/-- Claim C5: the retry controller makes at most `maxAttempts` sequential
`run` calls; when every attempt is non-qualifying (raising attempts are
caught and count as failed without aborting the loop) it makes exactly
`maxAttempts` calls and returns `None`; and it stops at the first attempt
whose post-call status is `SUCCESS` with a non-`None` result, making exactly
`k + 1` calls and returning that result when the first qualifying attempt is
attempt `k + 1`. -/
theorem c5_retry_controller (beh : AgentBeh Nat) (st0 : AgentStatus)
    (n : Nat) :
    (retryAgent beh st0 n).1 ≤ n ∧
    ((∀ k, k < n → attemptQual (beh (1 + k)) = none) →
      (retryAgent beh st0 n).1 = n ∧ (retryAgent beh st0 n).2.2 = none) ∧
    (∀ k r, k < n → attemptQual (beh (1 + k)) = some r →
      (∀ j, j < k → attemptQual (beh (1 + j)) = none) →
      (retryAgent beh st0 n).1 = k + 1 ∧
        (retryAgent beh st0 n).2.2 = some r) := by
  refine ⟨retryLoop_calls_le beh n 1 st0, ?_, ?_⟩
  · intro hfail
    exact retryLoop_all_fail beh n 1 st0 hfail
  · intro k r hk hq hprev
    exact retryLoop_first_success beh n k 1 st0 r hk hq hprev

/-- Witness for C5 at the default `maxAttempts = 3`, with an agent whose
retry attempt 1 raises and whose retry attempt 2 succeeds: exactly 2 calls
are made and the attempt-2 result is returned. -/
theorem c5_witness :
    (retryAgent retryDemoBeh .failure 3).1 = 1 + 1 ∧
      (retryAgent retryDemoBeh .failure 3).2.2 = some 5 :=
  (c5_retry_controller retryDemoBeh .failure 3).2.2 1 5 (by decide) (by decide)
    (fun j hj => by
      have hj0 : j = 0 := by omega
      subst hj0
      decide)

/-- Claim C6 counterexample: with two documents both carrying a venue record
for `"V1"` but with different payloads, the deduplicated venue list handed to
the capacity/amenity/location agents holds the *second* (last-seen) record,
not the first-seen one as claimed; the cost agent receives both records. -/
theorem c6_counterexample :
    capacityVenues twoDocs ≠ [vFirst] ∧
    amenityVenues twoDocs ≠ [vFirst] ∧
    locationVenues twoDocs ≠ [vFirst] ∧
    capacityVenues twoDocs = [vSecond] ∧
    vFirst ≠ vSecond ∧
    costVenues twoDocs = [vFirst, vSecond] := by
  decide

/-- Claim C6 amended: for any document list and any truthy `venue_id`, the
deduplicated venue list handed to capacity/amenity/location holds exactly one
record for that id — the *last-seen* matching record in retrieval order —
when some document carries one, and none otherwise; the cost agent receives
one venue record per document carrying one. -/
theorem c6_amended_last_seen (docs : List Doc) (vid : String)
    (hvid : vid ≠ "") :
    (capacityVenues docs).filter (fun v => decide (v.venue_id = some vid)) =
      (match lastVenueFor docs vid with
       | some v => [v]
       | none => []) ∧
    amenityVenues docs = capacityVenues docs ∧
    locationVenues docs = capacityVenues docs ∧
    (costVenues docs).length =
      (docs.filter (fun d => d.venue.isSome)).length := by
  refine ⟨?_, rfl, rfl, costVenues_length docs⟩
  have hg := goodMap_foldDedup docs [] goodMap_nil
  have h1 := filter_values_goodMap (docs.foldl dedupStep []) hg vid
  have h2 := pyGet_foldDedup vid hvid docs []
  show (venuesDedup docs).filter (fun v => decide (v.venue_id = some vid)) = _
  rw [venuesDedup, h1, h2]
  rcases lastVenueFor docs vid with _ | v
  · rfl
  · rfl

/-- Witness for the amended C6 at the two concrete documents: the filter
yields exactly the last-seen record and the cost list has one record per
document. -/
theorem c6_amended_witness :
    (capacityVenues twoDocs).filter
        (fun v => decide (v.venue_id = some "V1")) =
      (match lastVenueFor twoDocs "V1" with
       | some v => [v]
       | none => []) ∧
    amenityVenues twoDocs = capacityVenues twoDocs ∧
    locationVenues twoDocs = capacityVenues twoDocs ∧
    (costVenues twoDocs).length =
      (twoDocs.filter (fun d => d.venue.isSome)).length :=
  c6_amended_last_seen twoDocs "V1" (by decide)

/-- Claim C9: whenever the location agent's `run` completes (returns rather
than raises), the chain was invoked exactly twice — both invocations are
built from the same argument dictionary in the source — and the first
invocation's payload never influences the outcome; an exception from the
first invocation propagates out of `run` with the status field unchanged. -/
theorem c9_location_double_invocation (prior : AgentStatus) :
    (∀ (call1 call2 : Except Exn Nat) (st : AgentStatus) (v : Option Nat),
        locationRun prior call1 call2 = (st, .ok v) →
          locationChainCalls call1 = 2) ∧
    (∀ (a b : Nat) (call2 : Except Exn Nat),
        locationRun prior (.ok a) call2 = locationRun prior (.ok b) call2) ∧
    (∀ (e : Exn) (call2 : Except Exn Nat),
        locationRun prior (.error e) call2 = (prior, .error e)) := by
  refine ⟨?_, ?_, ?_⟩
  · intro call1 call2 st v h
    rcases call1 with e | a
    · simp [locationRun, locationAnalyze] at h
    · rfl
  · intro a b call2
    rcases call2 with e | r <;> rfl
  · intro e call2
    rfl

/-- Witness for C9: a completing location `run` (both chain calls succeed)
has an invocation count of 2. -/
theorem c9_witness : locationChainCalls (Except.ok (5 : Nat)) = 2 :=
  (c9_location_double_invocation .pending).1 (.ok 5) (.ok 6) .success (some 6)
    rfl

/-- Claim C3: when exactly one analysis agent fails (status `FAILURE`,
result `None`) and the other three succeed, `recommend` does not enter the
retry branch and proceeds directly to a single synthesis invocation whose
slot for the failed role is the empty-string placeholder, the other slots
holding the agents' results. -/
theorem c3_single_failure_direct_synthesis (beh : RoleName → AgentBeh Nat)
    (st : RoleName → AgentStatus) (res : RoleName → Option Nat)
    (docs : List Doc) (topN : Nat) (synthCall : Except Exn Nat) (f : RoleName)
    (h : ∀ r, beh r 0 = (st r, .ok (res r)))
    (hfst : st f = .failure) (hfres : res f = none)
    (hok : ∀ r, r ≠ f → st r = .success ∧ (res r).isSome) :
    (recommend beh docs topN synthCall).retried = [] ∧
    (recommend beh docs topN synthCall).synthInputs =
      [⟨res .capacity, res .amenity, res .location, res .cost,
        similarEventsStr docs, topN⟩] ∧
    (⟨res .capacity, res .amenity, res .location, res .cost,
      similarEventsStr docs, topN⟩ : SynthInput Nat).slot f = none := by
  obtain ⟨g, hgf⟩ : ∃ g : RoleName, g ≠ f := by
    cases f
    · exact ⟨.cost, by simp⟩
    · exact ⟨.amenity, by simp⟩
    · exact ⟨.amenity, by simp⟩
    · exact ⟨.amenity, by simp⟩
  have hbranch := recommend_synth_branch beh st res docs topN synthCall h g
    (hok g hgf).2
  rw [hbranch]
  have hslot : ∀ r, pyGet (buildRecs st res) r = res r := by
    intro r
    rw [pyGet_buildRecs]
    by_cases hrf : r = f
    · subst hrf; simp [hfres]
    · obtain ⟨hsucc, hsome⟩ := hok r hrf
      rcases Option.isSome_iff_exists.mp hsome with ⟨v, hv⟩
      simp [hv, hsucc]
  refine ⟨rfl, ?_, ?_⟩
  · simp [synthStep, hslot]
  · cases f <;> simpa [SynthInput.slot] using hfres

/-- Witness for C3 at a concrete behaviour: the location agent fails, the
other three succeed; no retry, one synthesis call, location slot empty. -/
theorem c3_witness :
    (recommend oneFailBeh [] 2
      (Except.error .chainError : Except Exn Nat)).retried = [] ∧
    (recommend oneFailBeh [] 2
      (Except.error .chainError : Except Exn Nat)).synthInputs =
      [⟨some 4, some 1, none, some 2, similarEventsStr [], 2⟩] ∧
    (⟨some 4, some 1, none, some 2, similarEventsStr [], 2⟩ :
      SynthInput Nat).slot .location = none :=
  c3_single_failure_direct_synthesis oneFailBeh
    (fun r => match r with | .location => .failure | _ => .success)
    (fun r => match r with
      | .location => none
      | .amenity => some 1
      | .cost => some 2
      | .capacity => some 4)
    [] 2 (Except.error .chainError) .location
    (fun r => by cases r <;> rfl) rfl rfl
    (fun r hr => by
      cases r
      · exact ⟨rfl, rfl⟩
      · exact ⟨rfl, rfl⟩
      · exact absurd rfl hr
      · exact ⟨rfl, rfl⟩)

/-- Claim C4: (i) whenever the capacity/cost, amenity or location agent's
`run` resolves (returns rather than raises), the status field is not
`PENDING`, and status `SUCCESS` implies the returned result is non-`None`;
(ii) the orchestrator never forwards a `FAILURE`-status result to synthesis:
a populated synthesis slot always carries the result of an agent whose
status was `SUCCESS` with that very non-`None` result (roles absent from the
mapping stay at the empty-string placeholder). -/
theorem c4_status_result_consistency :
    (∀ (prior : AgentStatus) (call : Except Exn Nat) (st : AgentStatus)
        (v : Option Nat),
        catchStyleRun prior call = (st, .ok v) →
          st ≠ .pending ∧ (st = .success → v.isSome)) ∧
    (∀ (prior : AgentStatus) (call : Except Exn Nat) (st : AgentStatus)
        (v : Option Nat),
        amenityRun prior call = (st, .ok v) →
          st ≠ .pending ∧ (st = .success → v.isSome)) ∧
    (∀ (prior : AgentStatus) (c1 c2 : Except Exn Nat) (st : AgentStatus)
        (v : Option Nat),
        locationRun prior c1 c2 = (st, .ok v) →
          st ≠ .pending ∧ (st = .success → v.isSome)) ∧
    (∀ (beh : RoleName → AgentBeh Nat) (st : RoleName → AgentStatus)
        (res : RoleName → Option Nat) (docs : List Doc) (topN : Nat)
        (synthCall : Except Exn Nat) (inp : SynthInput Nat),
        (∀ r, beh r 0 = (st r, .ok (res r))) →
        inp ∈ (recommend beh docs topN synthCall).synthInputs →
        ∀ r x, inp.slot r = some x → res r = some x ∧ st r = .success) := by
  refine ⟨?_, ?_, ?_, ?_⟩
  · intro prior call st v h
    rcases call with e | r
    · simp [catchStyleRun, analyzeCatch, logDump] at h
    · simp only [catchStyleRun, analyzeCatch, logDump, Prod.mk.injEq,
        Except.ok.injEq] at h
      obtain ⟨h1, h2⟩ := h
      subst h1
      subst h2
      exact ⟨by simp, fun _ => by simp⟩
  · intro prior call st v h
    rcases call with e | r
    · simp [amenityRun, amenityAnalyze, logDump] at h
    · simp only [amenityRun, amenityAnalyze, logDump, Prod.mk.injEq,
        Except.ok.injEq] at h
      obtain ⟨h1, h2⟩ := h
      subst h1
      subst h2
      exact ⟨by simp, fun _ => by simp⟩
  · intro prior c1 c2 st v h
    rcases c1 with e | a
    · simp [locationRun, locationAnalyze, logDump] at h
    · rcases c2 with e | r
      · simp [locationRun, locationAnalyze, logDump] at h
      · simp only [locationRun, locationAnalyze, logDump, Prod.mk.injEq,
          Except.ok.injEq] at h
        obtain ⟨h1, h2⟩ := h
        subst h1
        subst h2
        exact ⟨by simp, fun _ => by simp⟩
  · intro beh st res docs topN synthCall inp h hmem r x hslot
    by_cases hall : ∀ r', res r' = none
    · have htot := recommend_total_failure beh st docs topN synthCall
        (fun r' => by rw [h r', hall r'])
      rw [htot] at hmem
      simp at hmem
    · push_neg at hall
      obtain ⟨g, hg⟩ := hall
      have hbranch := recommend_synth_branch beh st res docs topN synthCall h g
        (Option.isSome_iff_ne_none.mpr hg)
      rw [hbranch] at hmem
      simp only [synthStep, List.mem_singleton] at hmem
      subst hmem
      have hs : pyGet (buildRecs st res) r = some x := by
        cases r <;> simpa [SynthInput.slot] using hslot
      rw [pyGet_buildRecs] at hs
      rcases hres : res r with _ | v
      · rw [hres] at hs
        simp at hs
      · rw [hres] at hs
        by_cases hsucc : st r = .success
        · simp only [hsucc, if_true] at hs
          simp only [Option.some.injEq] at hs
          subst hs
          exact ⟨rfl, hsucc⟩
        · simp [hsucc] at hs

/-- Witness for C4: the capacity-style `run` resolving with `(SUCCESS,
some 5)` satisfies the status/result consistency. -/
theorem c4_witness :
    AgentStatus.success ≠ AgentStatus.pending ∧
      (AgentStatus.success = AgentStatus.success →
        (some (5 : Nat)).isSome) :=
  c4_status_result_consistency.1 .pending (.ok 5) .success (some 5) rfl

/-- Claim C7: when all four agents succeed on the initial dispatch,
`recommend` performs exactly one synthesis invocation, with every slot
populated by the corresponding agent's (non-empty) result and with the
newline-joined page contents of all retrieved documents, in retrieval order,
as the similar-events argument; the synthesis result is returned and no
retry happens. -/
theorem c7_all_success_single_synthesis (beh : RoleName → AgentBeh Nat)
    (res : RoleName → Nat) (docs : List Doc) (topN : Nat)
    (synthCall : Except Exn Nat)
    (h : ∀ r, beh r 0 = (.success, .ok (some (res r)))) :
    (recommend beh docs topN synthCall).synthInputs =
      [⟨some (res .capacity), some (res .amenity), some (res .location),
        some (res .cost), similarEventsStr docs, topN⟩] ∧
    (recommend beh docs topN synthCall).result =
      .ok (.synth (synthesisRun synthCall).2) ∧
    (recommend beh docs topN synthCall).retried = [] := by
  have hbranch := recommend_synth_branch beh (fun _ => .success)
    (fun r => some (res r)) docs topN synthCall h .amenity (by simp)
  rw [hbranch]
  have hslot : ∀ r,
      pyGet (buildRecs (fun _ => AgentStatus.success)
        (fun r => some (res r))) r = some (res r) := by
    intro r
    rw [pyGet_buildRecs]
    simp
  refine ⟨?_, rfl, rfl⟩
  simp [synthStep, hslot]

/-- Witness for C7: all four agents succeed with results 1-4 over two
documents; one synthesis call with all slots filled and the joined page
contents. -/
theorem c7_witness :
    (recommend allOkBeh [⟨"d1", none⟩, ⟨"d2", none⟩] 2
      (Except.ok (9 : Nat))).synthInputs =
      [⟨some 4, some 1, some 3, some 2,
        similarEventsStr [⟨"d1", none⟩, ⟨"d2", none⟩], 2⟩] ∧
    (recommend allOkBeh [⟨"d1", none⟩, ⟨"d2", none⟩] 2
      (Except.ok (9 : Nat))).result =
      .ok (.synth (synthesisRun (Except.ok (9 : Nat))).2) ∧
    (recommend allOkBeh [⟨"d1", none⟩, ⟨"d2", none⟩] 2
      (Except.ok (9 : Nat))).retried = [] :=
  c7_all_success_single_synthesis allOkBeh
    (fun r => match r with
      | .amenity => 1 | .cost => 2 | .location => 3 | .capacity => 4)
    [⟨"d1", none⟩, ⟨"d2", none⟩] 2 (Except.ok 9)
    (fun r => by cases r <;> rfl)

/-- Claim C8: on any pass that reaches the synthesis step, synthesis is
invoked exactly once and its result is handed back to the caller as-is; in
particular when the synthesis chain call raises, its `run` converts that to
`None` and `recommend` returns this `None` without retrying synthesis and
without raising. -/
theorem c8_synthesis_failure_surfaced (beh : RoleName → AgentBeh Nat)
    (st : RoleName → AgentStatus) (res : RoleName → Option Nat)
    (docs : List Doc) (topN : Nat) (synthCall : Except Exn Nat)
    (f : RoleName) (h : ∀ r, beh r 0 = (st r, .ok (res r)))
    (hf : (res f).isSome) :
    (recommend beh docs topN synthCall).result =
      .ok (.synth (synthesisRun synthCall).2) ∧
    (recommend beh docs topN synthCall).synthInputs.length = 1 ∧
    (∀ e : Exn, synthCall = .error e →
      (recommend beh docs topN synthCall).result = .ok (.synth none)) := by
  have hbranch := recommend_synth_branch beh st res docs topN synthCall h f hf
  rw [hbranch]
  refine ⟨rfl, rfl, ?_⟩
  intro e he
  subst he
  rfl

/-- Witness for C8: all agents succeed, the synthesis chain call raises;
`recommend` returns the `None` synthesis result. -/
theorem c8_witness :
    (recommend allOkBeh [] 2
      (Except.error .chainError : Except Exn Nat)).result =
      .ok (.synth none) :=
  (c8_synthesis_failure_surfaced allOkBeh (fun _ => .success)
    (fun r => some (match r with
      | .amenity => 1 | .cost => 2 | .location => 3 | .capacity => 4))
    [] 2 (Except.error .chainError) .amenity
    (fun r => by cases r <;> rfl) rfl).2.2 .chainError rfl

/-- Claim C10: a venue record without a truthy `venue_id` never appears in
the deduplicated venue lists handed to the capacity, amenity and location
agents (every member carries a non-empty id), while the cost agent's list
keeps the venue record of every document that has one. -/
theorem c10_untruthy_id_filtered (docs : List Doc) :
    (∀ v ∈ capacityVenues docs, ∃ s, v.venue_id = some s ∧ s ≠ "") ∧
    (∀ v ∈ amenityVenues docs, ∃ s, v.venue_id = some s ∧ s ≠ "") ∧
    (∀ v ∈ locationVenues docs, ∃ s, v.venue_id = some s ∧ s ≠ "") ∧
    (∀ d ∈ docs, ∀ v, d.venue = some v → v ∈ costVenues docs) := by
  have hmain : ∀ v ∈ venuesDedup docs, ∃ s, v.venue_id = some s ∧ s ≠ "" := by
    intro v hv
    rw [venuesDedup] at hv
    rcases List.mem_map.mp hv with ⟨p, hp, hpv⟩
    have hq := (goodMap_foldDedup docs [] goodMap_nil).1 p hp
    exact ⟨p.1, hpv ▸ hq.1, hq.2⟩
  refine ⟨hmain, hmain, hmain, ?_⟩
  intro d hd v hv
  exact List.mem_filterMap.mpr ⟨d, hd, hv⟩

/-- Witness for C10: over documents with an id-less record, an empty-id
record and one well-formed record, the well-formed record is a member of the
dedup list and has a truthy id, and the id-less document's record is in the
cost list. -/
theorem c10_witness :
    (∃ s, vFirst.venue_id = some s ∧ s ≠ "") ∧
      vNoId ∈ costVenues mixedDocs :=
  ⟨(c10_untruthy_id_filtered mixedDocs).1 vFirst (by decide),
    (c10_untruthy_id_filtered mixedDocs).2.2.2 ⟨"doc one", some vNoId⟩
      (by decide) vNoId rfl⟩
